import Mathlib

/-!
Shallow embedding of `resources/actions.py` from the handle_music repository:
the batch operations `get_artwork`, `id3_correct`, `file_copy` and
`file_move`.  Paths are directory/basename pairs, the filesystem is a finite
association of paths to tag containers, and the external collaborators
(configured regular expressions, the tag library, the artwork provider) are
abstract parameters supplied to each operation.
-/

namespace HandleMusic

/-- Filesystem path, split as by `os.path.split`: a directory and a basename. -/
structure MPath where
  dir : String
  base : String
deriving DecidableEq, Repr

/-- Embedded cover art (an APIC frame): mime type and raw image bytes. -/
structure Cover where
  mime : String
  data : String
deriving DecidableEq, Repr

/-- Tag container of an audio file: artist, title and embedded cover art. -/
structure TagC where
  artist : Option String := none
  title : Option String := none
  cover : Option Cover := none
deriving DecidableEq, Repr

/-- Filesystem contents: association of paths to tag containers. -/
abbrev FS := List (MPath × TagC)

/-- Look up the tag container stored at a path. -/
def fsLookup : FS → MPath → Option TagC
  | [], _ => none
  | (q, t) :: rest, p => if q = p then some t else fsLookup rest p

/-- Delete a path from the filesystem. -/
def fsErase : FS → MPath → FS
  | [], _ => []
  | (q, t) :: rest, p => if q = p then fsErase rest p else (q, t) :: fsErase rest p

/-- Write a tag container at a path, creating or overwriting the file there. -/
def fsSet (fs : FS) (p : MPath) (t : TagC) : FS :=
  (p, t) :: fsErase fs p

/-- Model of `os.rename` / `shutil.move`: move the file at `old` to `new`,
overwriting any file already at `new`; `none` models the FileNotFoundError
raised when `old` does not exist. -/
def fsRename (fs : FS) (old new : MPath) : Option FS :=
  match fsLookup fs old with
  | none => none
  | some t => some (fsSet (fsErase fs old) new t)

/-- Python `list.remove(x)`: drop the first occurrence of `x`; `none` models
the ValueError raised when `x` is absent. -/
def pyRemove {α : Type} [DecidableEq α] : List α → α → Option (List α)
  | [], _ => none
  | x :: rest, a => if x = a then some rest else (pyRemove rest a).map (x :: ·)

/-- Splitting on a literal separator, on character lists: the fuel argument
(initialised to the length of the input, which bounds the number of steps
since every step consumes at least one character) makes the recursion
structural.  With a non-empty separator this is Python's
`re.split(sep, s)` / `s.split(sep)` for a separator without regex
metacharacters: non-overlapping leftmost matches, text between matches. -/
def splitGo (sep : List Char) : Nat → List Char → List Char → List (List Char)
  | 0, s, acc => [acc.reverse ++ s]
  | _ + 1, [], acc => [acc.reverse]
  | fuel + 1, c :: rest, acc =>
    if sep.isPrefixOf (c :: rest) then
      acc.reverse :: splitGo sep fuel ((c :: rest).drop sep.length) []
    else
      splitGo sep fuel rest (c :: acc)

/-- Python `re.split(sep, s)` for a literal separator `sep`. -/
def reSplit (sep : String) (s : String) : List String :=
  (splitGo sep.data s.data.length s.data []).map (fun cs => String.mk cs)

/-- Python `s.strip()`: remove leading and trailing whitespace. -/
def pyStrip (s : String) : String :=
  String.mk (((s.data.dropWhile Char.isWhitespace).reverse.dropWhile
    Char.isWhitespace).reverse)

/-- Python `s[:-4]`: all but the last four characters (empty when the string
is no longer than four characters). -/
def pySliceToNeg4 (s : String) : String :=
  String.mk (s.data.take (s.data.length - 4))

/-!
Artist collaborator stripping.  `get_artwork` (lines 187-188), `file_copy`
(lines 400-401) and `file_move` (lines 496-497) each contain the same two
lines: split the artist string on the configured "and" pattern, keep the
first segment, strip whitespace; then split on the configured "feature"
pattern, keep the first segment, strip whitespace.  The abstract parameters
`andS` and `featS` stand for `re.split(pattern, s)[0]`.
-/

/-- Artist stripping as written in `get_artwork`, lines 187-188. -/
def stripArtistGA (andS featS : String → String) (artist : String) : String :=
  pyStrip (featS (pyStrip (andS artist)))

/-- Artist stripping as written in `file_copy`, lines 400-401. -/
def stripArtistFC (andS featS : String → String) (artist : String) : String :=
  pyStrip (featS (pyStrip (andS artist)))

/-- Artist stripping as written in `file_move`, lines 496-497. -/
def stripArtistFM (andS featS : String → String) (artist : String) : String :=
  pyStrip (featS (pyStrip (andS artist)))

/-- Meaning of `re.split(r"feat\.", s)[0]`: the text of `s` before the first
occurrence of the literal `feat.` (the whole of `s` when it does not occur). -/
def featDotSplit (s : String) : String :=
  (reSplit "feat." s).headD ""

/-!
Embedding of `id3_correct` (actions.py lines 229-324), the branch where the
file list is already given.  The external collaborators are the three
configured regular expressions: `featureSub` is
`re.sub(settings["feature_tags"], " ft. ", s)`, `feature2Sub` is
`re.sub(settings["feature2_tags"], "(ft. ", s)`, and `invalidMatch` is
whether `re.search(settings["invalid_tags"], s)` matches.

The Python loop `for file in files` iterates by index over a list that the
body mutates with `files.remove(...)`; the embedding therefore carries the
current list and the current index explicitly, and the fuel argument (set to
the initial list length, an upper bound on the number of iterations since
every iteration advances the index) makes the recursion structural.  The
`emits` field records each value printed by `pg.inc_and_print()`, and
`attempted` records the list element at the start of each iteration of the
loop body.  An uncaught Python exception ends the run with `err` set.
-/

structure Id3Cfg where
  featureSub : String → String
  feature2Sub : String → String
  invalidMatch : String → Bool

structure Id3St where
  fs : FS
  tagged : List MPath := []
  quarantined : List MPath := []
  progress : Nat := 0
  emits : List Nat := []
  attempted : List MPath := []
deriving Repr

structure Id3Res where
  files : List MPath
  st : Id3St
  err : Option String := none
deriving Repr

/-- Outcome of one iteration of the `id3_correct` loop body: `halt` when an
uncaught exception ends the whole run, `next` with the (possibly shrunk)
list and the updated state otherwise. -/
inductive Id3StepRes where
  | halt (r : Id3Res)
  | next (files : List MPath) (st : Id3St)

/-- One iteration of the `id3_correct` loop body (lines 292-318) on the list
element `file`. -/
def id3Body (cfg : Id3Cfg) (source : String) (files : List MPath)
    (file : MPath) (st : Id3St) : Id3StepRes :=
  let st := { st with attempted := st.attempted ++ [file] }
  let basename := cfg.feature2Sub (cfg.featureSub file.base)
  let tmp : MPath := ⟨file.dir, basename⟩
  match fsRename st.fs file tmp with
  | none => .halt { files := files, st := st, err := some "FileNotFoundError" }
  | some fs1 =>
    let tags := reSplit " - " basename
    if cfg.invalidMatch basename ∨ tags.length ≠ 2 then
      let inv : MPath := ⟨source ++ "/_invalid", basename⟩
      match fsRename fs1 tmp inv with
      | none =>
        let stA := { st with fs := fs1 }
        .halt { files := files, st := stA, err := some "FileNotFoundError" }
      | some fs2 =>
        let stQ := { st with fs := fs2, quarantined := st.quarantined ++ [inv] }
        match pyRemove files tmp with
        | none =>
          .halt { files := files, st := stQ, err := some "ValueError" }
        | some files1 =>
          let stQ2 := { stQ with progress := st.progress + 1, emits := st.emits ++ [st.progress + 1] }
          .next files1 stQ2
    else
      match fsLookup fs1 tmp with
      | none =>
        let stA := { st with fs := fs1 }
        .halt { files := files, st := stA, err := some "mutagen open error" }
      | some tc =>
        let artist := pyStrip ((tags.get? 0).getD "")
        let title := pyStrip (pySliceToNeg4 ((tags.get? 1).getD ""))
        let fs2 := fsSet fs1 tmp { tc with artist := some artist, title := some title }
        let stT := { st with fs := fs2, tagged := st.tagged ++ [tmp], progress := st.progress + 1, emits := st.emits ++ [st.progress + 1] }
        .next files stT

def id3Loop (cfg : Id3Cfg) (source : String) :
    Nat → List MPath → Nat → Id3St → Id3Res
  | 0, files, _, st => { files := files, st := st }
  | fuel + 1, files, i, st =>
    if h : i < files.length then
      match id3Body cfg source files (files.get ⟨i, h⟩) st with
      | .halt r => r
      | .next files1 st1 => id3Loop cfg source fuel files1 (i + 1) st1
    else
      { files := files, st := st }

def id3Correct (cfg : Id3Cfg) (source : String) (files : List MPath)
    (fs : FS) : Id3Res :=
  id3Loop cfg source files.length files 0 { fs := fs }

/-!
Embedding of `get_artwork` (actions.py lines 41-223), after authentication
and with the file list already given.  External collaborators: `andSplit`
and `featSplit` stand for `re.split(settings["and_tags"], s)[0]` and
`re.split(settings["feature_tags"], s)[0]`; `search` is
`ds.search(artist, type="artist")`, returning for each result the list of
its image URIs; `fetch` downloads the bytes of an image URI; `embedFail`
abstracts whether `tags.add(APIC(...))` / `tmp_file.save()` raises for a
given file and cover.

Lines 192-215 run inside `try ... except: pass`: the first result's first
image is fetched, and if anything in that attempt raises, the second
result's first image is tried; the APIC frame is added and the file saved
only after a fetch succeeded, and any failure anywhere in the guarded block
leaves the file untouched.  By contrast the tag read (lines 185-186) and the
provider search (line 190) are outside any handler, so their failure aborts
the whole batch.
-/

/-- One search result of the artwork provider: its list of image URIs. -/
structure DResult where
  images : List String
deriving DecidableEq, Repr

structure GaCfg where
  andSplit : String → String
  featSplit : String → String
  search : String → Except String (List DResult)
  fetch : String → Except String String
  embedFail : MPath → Cover → Bool

/-- Lines 193-202: pick `results[k].images[0]` and fetch it, first for
`k = 0`, then — when any step of that raises — for `k = 1`.  Returns the
URI and the downloaded bytes, or `none` when both attempts fail. -/
def artworkAttempt (results : List DResult)
    (fetch : String → Except String String) : Option (String × String) :=
  let att := fun (k : Nat) =>
    match (results.get? k).bind (fun r => r.images.get? 0) with
    | none => none
    | some uri =>
      match fetch uri with
      | .error _ => none
      | .ok content => some (uri, content)
  match att 0 with
  | some r => some r
  | none => att 1

/-- The per-item body of the `get_artwork` loop (lines 175-215, before the
progress update): returns the updated filesystem, or an error when an
unguarded step raises. -/
def gaItem (cfg : GaCfg) (fs : FS) (file : MPath) : Except String FS :=
  match fsLookup fs file with
  | none => .error "mutagen open error"
  | some tc =>
    match tc.artist with
    | none => .error "KeyError: artist"
    | some artist0 =>
      let artist := stripArtistGA cfg.andSplit cfg.featSplit artist0
      match cfg.search artist with
      | .error e => .error e
      | .ok results =>
        match artworkAttempt results cfg.fetch with
        | none => .ok fs
        | some (uri, content) =>
          let cover : Cover :=
            { mime := "image/" ++ (reSplit "." uri).getLastD ""
              data := content }
          if cfg.embedFail file cover then .ok fs
          else .ok (fsSet fs file { tc with cover := some cover })

structure GaSt where
  fs : FS
  progress : Nat := 0
  emits : List Nat := []
  attempted : List MPath := []
deriving Repr

structure GaRes where
  files : List MPath
  st : GaSt
  err : Option String := none
deriving Repr

def gaLoop (cfg : GaCfg) : List MPath → GaSt → GaSt × Option String
  | [], st => (st, none)
  | f :: rest, st =>
    let st1 := { st with attempted := st.attempted ++ [f] }
    match gaItem cfg st1.fs f with
    | .error e => (st1, some e)
    | .ok fs2 =>
      let st2 := { st1 with fs := fs2, progress := st1.progress + 1, emits := st1.emits ++ [st1.progress + 1] }
      gaLoop cfg rest st2

def getArtwork (cfg : GaCfg) (files : List MPath) (fs : FS) : GaRes :=
  let r := gaLoop cfg files { fs := fs }
  { files := files, st := r.1, err := r.2 }

/-!
Embedding of `file_copy` (lines 329-420) and `file_move` (lines 426-516),
with the file list and destination already given.  Directories that exist at
the destination are a list of directory names; `os.mkdir` inside
`try ... except FileExistsError` adds the artist folder when absent and is a
logged no-op when it already exists.  The tag read (lines 398-399 resp.
494-495) is outside any handler, so a missing file or a missing artist tag
aborts the batch; the `shutil.copy2` / `shutil.move` call is inside a bare
`try ... except`, so its failure only logs and the loop continues.
-/

structure CpCfg where
  andSplit : String → String
  featSplit : String → String

/-- Destination path computed by `file_copy`: the artist folder under the
destination, keeping the file's basename (lines 400-410). -/
def fcDestPath (cfg : CpCfg) (destination : String) (artist0 : String)
    (base : String) : MPath :=
  ⟨destination ++ "/" ++ stripArtistFC cfg.andSplit cfg.featSplit artist0, base⟩

/-- Destination path computed by `file_move` (lines 496-506). -/
def fmDestPath (cfg : CpCfg) (destination : String) (artist0 : String)
    (base : String) : MPath :=
  ⟨destination ++ "/" ++ stripArtistFM cfg.andSplit cfg.featSplit artist0, base⟩

/-- Per-item body of the `file_copy` loop (lines 396-412). -/
def cpItem (cfg : CpCfg) (destination : String) (fs : FS)
    (dirs : List String) (file : MPath) : Except String (FS × List String) :=
  match fsLookup fs file with
  | none => .error "mutagen open error"
  | some tc =>
    match tc.artist with
    | none => .error "KeyError: artist"
    | some artist0 =>
      let target := fcDestPath cfg destination artist0 file.base
      let dirs1 := if target.dir ∈ dirs then dirs else dirs ++ [target.dir]
      .ok (fsSet fs target tc, dirs1)

/-- Per-item body of the `file_move` loop (lines 492-508); `shutil.move` is
modelled by `fsRename`, and its guarded failure leaves the filesystem
unchanged. -/
def mvItem (cfg : CpCfg) (destination : String) (fs : FS)
    (dirs : List String) (file : MPath) : Except String (FS × List String) :=
  match fsLookup fs file with
  | none => .error "mutagen open error"
  | some tc =>
    match tc.artist with
    | none => .error "KeyError: artist"
    | some artist0 =>
      let target := fmDestPath cfg destination artist0 file.base
      let dirs1 := if target.dir ∈ dirs then dirs else dirs ++ [target.dir]
      .ok ((fsRename fs file target).getD fs, dirs1)

structure CpSt where
  fs : FS
  dirs : List String
  progress : Nat := 0
  emits : List Nat := []
  attempted : List MPath := []
deriving Repr

structure CpRes where
  files : List MPath
  st : CpSt
  err : Option String := none
deriving Repr

def fcLoop (cfg : CpCfg) (destination : String) :
    List MPath → CpSt → CpSt × Option String
  | [], st => (st, none)
  | f :: rest, st =>
    let st1 := { st with attempted := st.attempted ++ [f] }
    match cpItem cfg destination st1.fs st1.dirs f with
    | .error e => (st1, some e)
    | .ok r =>
      let st2 := { st1 with fs := r.1, dirs := r.2, progress := st1.progress + 1, emits := st1.emits ++ [st1.progress + 1] }
      fcLoop cfg destination rest st2

def fmLoop (cfg : CpCfg) (destination : String) :
    List MPath → CpSt → CpSt × Option String
  | [], st => (st, none)
  | f :: rest, st =>
    let st1 := { st with attempted := st.attempted ++ [f] }
    match mvItem cfg destination st1.fs st1.dirs f with
    | .error e => (st1, some e)
    | .ok r =>
      let st2 := { st1 with fs := r.1, dirs := r.2, progress := st1.progress + 1, emits := st1.emits ++ [st1.progress + 1] }
      fmLoop cfg destination rest st2

def fileCopy (cfg : CpCfg) (destination : String) (files : List MPath)
    (fs : FS) (dirs : List String) : CpRes :=
  let r := fcLoop cfg destination files { fs := fs, dirs := dirs }
  { files := files, st := r.1, err := r.2 }

def fileMove (cfg : CpCfg) (destination : String) (files : List MPath)
    (fs : FS) (dirs : List String) : CpRes :=
  let r := fmLoop cfg destination files { fs := fs, dirs := dirs }
  { files := files, st := r.1, err := r.2 }

/-!
Concrete instances used to evaluate the batch operations on closed inputs.
-/

/-- Configuration whose feature substitutions are the identity and whose
invalid pattern matches nothing. -/
def plainCfg : Id3Cfg := ⟨id, id, fun _ => false⟩

def skipA : MPath := ⟨"src", "A - B.mp3"⟩

def skipB : MPath := ⟨"src", "BadFormat.mp3"⟩

def skipC : MPath := ⟨"src", "C - D.mp3"⟩

def skipFS : FS := [(skipA, {}), (skipB, {}), (skipC, {})]

/-- Run of `id3_correct` on the three-file batch where the second file has
no " - " separator. -/
def skipRes : Id3Res := id3Correct plainCfg "src" [skipA, skipB, skipC] skipFS

/-- Provider configuration whose search always raises. -/
def searchFailCfg : GaCfg :=
  ⟨id, id, fun _ => .error "HTTPError", fun _ => .error "network error", fun _ _ => false⟩

/-- Provider configuration whose search finds nothing and whose fetch and
embed always fail. -/
def noHitCfg : GaCfg :=
  ⟨id, id, fun _ => .ok [], fun _ => .error "network error", fun _ _ => true⟩

def gaF1 : MPath := ⟨"src", "one.mp3"⟩

def gaF2 : MPath := ⟨"src", "two.mp3"⟩

def gaFS : FS := [(gaF1, { artist := some "A" }), (gaF2, { artist := some "B" })]

/-!
Structural lemmas about the loops.
-/

theorem fsLookup_erase (fs : FS) (p q : MPath) :
    fsLookup (fsErase fs p) q = if q = p then none else fsLookup fs q := by
  induction fs with
  | nil => simp [fsErase, fsLookup]
  | cons e rest ih =>
    obtain ⟨r, t⟩ := e
    by_cases hp : r = p
    · rw [show fsErase ((r, t) :: rest) p = fsErase rest p by simp [fsErase, hp]]
      rw [ih]
      by_cases hq : q = p
      · simp [hq]
      · have hrq : ¬ r = q := fun hh => hq (hh.symm.trans hp)
        simp [hq, fsLookup, hrq]
    · rw [show fsErase ((r, t) :: rest) p = (r, t) :: fsErase rest p by
        simp [fsErase, hp]]
      by_cases hq : r = q
      · have hqp : ¬ q = p := fun hh => hp (hq.trans hh)
        simp [fsLookup, hq, hqp]
      · simp [fsLookup, hq, ih]

theorem fsLookup_set (fs : FS) (p q : MPath) (t : TagC) :
    fsLookup (fsSet fs p t) q = if q = p then some t else fsLookup fs q := by
  by_cases h : q = p
  · subst h; simp [fsSet, fsLookup]
  · have hpq : ¬ p = q := fun hh => h hh.symm
    simp [fsSet, fsLookup, hpq, fsLookup_erase, h]

theorem pyRemove_length {α : Type} [DecidableEq α] :
    ∀ (l : List α) (a : α) (l2 : List α), pyRemove l a = some l2 →
      l2.length + 1 = l.length := by
  intro l
  induction l with
  | nil => intro a l2 h; simp [pyRemove] at h
  | cons x rest ih =>
    intro a l2 h
    by_cases hx : x = a
    · simp [pyRemove, hx] at h
      subst h
      simp
    · simp [pyRemove, hx] at h
      obtain ⟨l3, h3, hl⟩ := h
      subst hl
      simp [ih a l3 h3]

/-- Helper: appending the next element to an initial segment of naturals. -/
theorem range'_concat_one : ∀ (s n : Nat),
    List.range' s (n + 1) = List.range' s n ++ [s + n] := by
  intro s n
  induction n generalizing s with
  | zero => simp [List.range']
  | succ m ih =>
    rw [List.range']
    rw [ih (s + 1)]
    simp [List.range', Nat.add_assoc, Nat.add_comm 1 m]


/-- Shape of one `id3_correct` loop iteration: a halt keeps progress and
emissions and reports an error; a completed iteration emits exactly one
progress update, records exactly one attempt, and shrinks the working list
by at most one element. -/
theorem id3Body_spec (cfg : Id3Cfg) (source : String) (files : List MPath)
    (file : MPath) (st : Id3St) :
    (∃ r, id3Body cfg source files file st = .halt r
        ∧ r.st.progress = st.progress ∧ r.st.emits = st.emits
        ∧ r.st.attempted = st.attempted ++ [file] ∧ r.err ≠ none
        ∧ r.files = files)
    ∨ (∃ files1 st1, id3Body cfg source files file st = .next files1 st1
        ∧ st1.progress = st.progress + 1
        ∧ st1.emits = st.emits ++ [st.progress + 1]
        ∧ st1.attempted = st.attempted ++ [file]
        ∧ (files1 = files ∨ files1.length + 1 = files.length)) := by
  unfold id3Body
  dsimp only
  cases h1 : fsRename st.fs file ⟨file.dir, cfg.feature2Sub (cfg.featureSub file.base)⟩ with
  | none =>
    left
    refine ⟨_, rfl, ?_, ?_, ?_, ?_, ?_⟩ <;> simp
  | some fs1 =>
    dsimp only
    by_cases h2 : (cfg.invalidMatch (cfg.feature2Sub (cfg.featureSub file.base)) = true
        ∨ (reSplit " - " (cfg.feature2Sub (cfg.featureSub file.base))).length ≠ 2)
    · rw [if_pos h2]
      cases h3 : fsRename fs1 ⟨file.dir, cfg.feature2Sub (cfg.featureSub file.base)⟩
          ⟨source ++ "/_invalid", cfg.feature2Sub (cfg.featureSub file.base)⟩ with
      | none =>
        left
        refine ⟨_, rfl, ?_, ?_, ?_, ?_, ?_⟩ <;> simp
      | some fs2 =>
        dsimp only
        cases h4 : pyRemove files ⟨file.dir, cfg.feature2Sub (cfg.featureSub file.base)⟩ with
        | none =>
          left
          refine ⟨_, rfl, ?_, ?_, ?_, ?_, ?_⟩ <;> simp
        | some files1 =>
          right
          refine ⟨files1, _, rfl, ?_, ?_, ?_, Or.inr (pyRemove_length files _ files1 h4)⟩ <;> simp
    · rw [if_neg h2]
      cases h5 : fsLookup fs1 ⟨file.dir, cfg.feature2Sub (cfg.featureSub file.base)⟩ with
      | none =>
        left
        refine ⟨_, rfl, ?_, ?_, ?_, ?_, ?_⟩ <;> simp
      | some tc =>
        right
        refine ⟨files, _, rfl, ?_, ?_, ?_, Or.inl rfl⟩ <;> simp

/-- Invariants of the `id3_correct` loop: final progress is bounded by the
number of list positions left; the emitted progress values are exactly
`1, 2, ...`; and on a run without an uncaught exception the final progress
equals the number of attempted items. -/
theorem id3Loop_inv (cfg : Id3Cfg) (source : String) :
    ∀ (fuel : Nat) (files : List MPath) (i : Nat) (st : Id3St),
      ((id3Loop cfg source fuel files i st).st.progress ≤ st.progress + (files.length - i))
      ∧ (st.emits = List.range' 1 st.progress →
          (id3Loop cfg source fuel files i st).st.emits
            = List.range' 1 (id3Loop cfg source fuel files i st).st.progress)
      ∧ (st.progress = st.attempted.length →
          (id3Loop cfg source fuel files i st).err = none →
          (id3Loop cfg source fuel files i st).st.progress
            = (id3Loop cfg source fuel files i st).st.attempted.length) := by
  intro fuel
  induction fuel with
  | zero =>
    intro files i st
    refine ⟨by simp [id3Loop], fun hpre => by simp [id3Loop, hpre],
      fun hpre _ => by simpa [id3Loop] using hpre⟩
  | succ fuel ih =>
    intro files i st
    by_cases h : i < files.length
    · have hstep : id3Loop cfg source (fuel + 1) files i st =
          match id3Body cfg source files (files.get ⟨i, h⟩) st with
          | .halt r => r
          | .next files1 st1 => id3Loop cfg source fuel files1 (i + 1) st1 := by
        rw [id3Loop, dif_pos h]
      rcases id3Body_spec cfg source files (files.get ⟨i, h⟩) st with
        ⟨r, hb, hp, he, ha, herr, hf⟩ | ⟨files1, st1, hb, hp, he, ha, hlen⟩
      · rw [hstep, hb]
        dsimp only
        refine ⟨by rw [hp]; omega, fun hpre => by rw [he, hp]; exact hpre,
          fun _ h2 => absurd h2 herr⟩
      · rw [hstep, hb]
        dsimp only
        have IH := ih files1 (i + 1) st1
        refine ⟨?_, ?_, ?_⟩
        · have h5 := IH.1
          rw [hp] at h5
          rcases hlen with h9 | h9
          · subst h9; omega
          · omega
        · intro hpre
          have hpre1 : st1.emits = List.range' 1 st1.progress := by
            rw [he, hp, hpre, range'_concat_one, Nat.add_comm 1 st.progress]
          exact IH.2.1 hpre1
        · intro hpre herr2
          have hpre1 : st1.progress = st1.attempted.length := by
            rw [hp, ha, hpre]; simp
          exact IH.2.2 hpre1 herr2
    · rw [id3Loop, dif_neg h]
      exact ⟨by dsimp only; omega, fun hpre => hpre, fun hpre _ => hpre⟩


theorem id3Loop_zero (cfg : Id3Cfg) (source : String) (files : List MPath)
    (i : Nat) (st : Id3St) :
    id3Loop cfg source 0 files i st = { files := files, st := st } := rfl

theorem id3Loop_cons (cfg : Id3Cfg) (source : String) (fuel : Nat)
    (files : List MPath) (i : Nat) (st : Id3St) (h : i < files.length) :
    id3Loop cfg source (fuel + 1) files i st
      = match id3Body cfg source files (files.get ⟨i, h⟩) st with
        | .halt r => r
        | .next files1 st1 => id3Loop cfg source fuel files1 (i + 1) st1 := by
  rw [id3Loop, dif_pos h]

theorem gaLoop_inv (cfg : GaCfg) :
    ∀ (files : List MPath) (st : GaSt),
      ((gaLoop cfg files st).1.progress ≤ st.progress + files.length)
      ∧ (st.emits = List.range' 1 st.progress →
          (gaLoop cfg files st).1.emits
            = List.range' 1 (gaLoop cfg files st).1.progress)
      ∧ (st.progress = st.attempted.length → (gaLoop cfg files st).2 = none →
          (gaLoop cfg files st).1.progress
            = (gaLoop cfg files st).1.attempted.length)
      ∧ ((gaLoop cfg files st).2 = none →
          (gaLoop cfg files st).1.progress = st.progress + files.length) := by
  intro files
  induction files with
  | nil =>
    intro st
    refine ⟨by simp [gaLoop], fun hpre => by simpa [gaLoop] using hpre,
      fun hpre _ => by simpa [gaLoop] using hpre, fun _ => by simp [gaLoop]⟩
  | cons f rest ih =>
    intro st
    simp only [gaLoop]
    cases hg : gaItem cfg st.fs f with
    | error e =>
      dsimp only
      refine ⟨by omega, fun hpre => hpre, fun _ h2 => by simp at h2,
        fun h2 => by simp at h2⟩
    | ok fs2 =>
      dsimp only
      have IH := ih ⟨fs2, st.progress + 1, st.emits ++ [st.progress + 1], st.attempted ++ [f]⟩
      refine ⟨?_, ?_, ?_, ?_⟩
      · have h5 := IH.1
        dsimp only at h5
        simp only [List.length_cons]
        omega
      · intro hpre
        exact IH.2.1 (by dsimp only; rw [hpre, range'_concat_one, Nat.add_comm 1 st.progress])
      · intro hpre h2
        exact IH.2.2.1 (by dsimp only; simp [hpre]) h2
      · intro h2
        have h5 := IH.2.2.2 h2
        dsimp only at h5
        simp only [List.length_cons]
        omega



/-- All-or-nothing shape of one get_artwork item. -/
theorem gaItem_cases (cfg : GaCfg) (fs : FS) (f : MPath) :
    (∃ e, gaItem cfg fs f = .error e)
    ∨ gaItem cfg fs f = .ok fs
    ∨ (∃ tc c, fsLookup fs f = some tc
        ∧ gaItem cfg fs f = .ok (fsSet fs f { tc with cover := some c })) := by
  unfold gaItem
  cases h1 : fsLookup fs f with
  | none => exact Or.inl ⟨_, rfl⟩
  | some tc =>
    dsimp only
    cases h2 : tc.artist with
    | none => exact Or.inl ⟨_, rfl⟩
    | some a0 =>
      dsimp only
      cases h3 : cfg.search (stripArtistGA cfg.andSplit cfg.featSplit a0) with
      | error e => exact Or.inl ⟨_, rfl⟩
      | ok rs =>
        dsimp only
        cases h4 : artworkAttempt rs cfg.fetch with
        | none => exact Or.inr (Or.inl rfl)
        | some pr =>
          obtain ⟨uri, content⟩ := pr
          dsimp only
          by_cases h5 : cfg.embedFail f ⟨"image/" ++ (reSplit "." uri).getLastD "", content⟩
          · rw [if_pos h5]; exact Or.inr (Or.inl rfl)
          · rw [if_neg h5]
            refine Or.inr (Or.inr ⟨tc,
              ⟨"image/" ++ (reSplit "." uri).getLastD "", content⟩, rfl, ?_⟩)
            rw [h2]

/-- When the tag read and the provider search succeed, one get_artwork item
never raises: it either leaves the file unchanged or embeds a cover. -/
theorem gaItem_ok (cfg : GaCfg) (fs : FS) (f : MPath) (tc : TagC) (a0 : String)
    (h1 : fsLookup fs f = some tc) (h2 : tc.artist = some a0)
    (h3 : ∃ rs, cfg.search (stripArtistGA cfg.andSplit cfg.featSplit a0) = .ok rs) :
    gaItem cfg fs f = .ok fs
    ∨ ∃ c, gaItem cfg fs f = .ok (fsSet fs f { tc with cover := some c }) := by
  obtain ⟨rs, hrs⟩ := h3
  unfold gaItem
  rw [h1]
  dsimp only
  rw [h2]
  dsimp only
  rw [hrs]
  dsimp only
  cases h4 : artworkAttempt rs cfg.fetch with
  | none => exact Or.inl rfl
  | some pr =>
    obtain ⟨uri, content⟩ := pr
    dsimp only
    by_cases h5 : cfg.embedFail f ⟨"image/" ++ (reSplit "." uri).getLastD "", content⟩
    · rw [if_pos h5]; exact Or.inl rfl
    · rw [if_neg h5]; exact Or.inr ⟨_, rfl⟩

/-- When the provider search returns zero results, a get_artwork item leaves
the filesystem unchanged. -/
theorem gaItem_noResults (cfg : GaCfg) (fs : FS) (f : MPath) (tc : TagC) (a0 : String)
    (h1 : fsLookup fs f = some tc) (h2 : tc.artist = some a0)
    (h3 : cfg.search (stripArtistGA cfg.andSplit cfg.featSplit a0) = .ok []) :
    gaItem cfg fs f = .ok fs := by
  unfold gaItem
  rw [h1]
  dsimp only
  rw [h2]
  dsimp only
  rw [h3]
  dsimp only
  rw [show artworkAttempt [] cfg.fetch = none from rfl]

/-- Failure isolation for the guarded steps: when every file has a readable
artist tag and the provider search always succeeds, the batch attempts every
item and never aborts, whatever the image fetch and the tag embed do. -/
theorem gaLoop_total (cfg : GaCfg) :
    ∀ (files : List MPath) (st : GaSt),
      (∀ f ∈ files, ∃ tc, fsLookup st.fs f = some tc ∧ tc.artist ≠ none) →
      (∀ s, ∃ rs, cfg.search s = Except.ok rs) →
      (gaLoop cfg files st).2 = none ∧
        (gaLoop cfg files st).1.attempted = st.attempted ++ files := by
  intro files
  induction files with
  | nil => intro st _ _; simp [gaLoop]
  | cons f rest ih =>
    intro st hf hs
    obtain ⟨tc, hlook, hart⟩ := hf f (List.mem_cons_self f rest)
    cases ha : tc.artist with
    | none => exact absurd ha hart
    | some a0 =>
      simp only [gaLoop]
      rcases gaItem_ok cfg st.fs f tc a0 hlook ha (hs _) with hok | ⟨c, hok⟩
      · rw [hok]
        dsimp only
        have IH := ih ⟨st.fs, st.progress + 1, st.emits ++ [st.progress + 1], st.attempted ++ [f]⟩
          (fun g hg => hf g (List.mem_cons_of_mem f hg)) hs
        exact ⟨IH.1, by rw [IH.2]; simp⟩
      · rw [hok]
        dsimp only
        have IH := ih ⟨fsSet st.fs f { tc with cover := some c }, st.progress + 1,
            st.emits ++ [st.progress + 1], st.attempted ++ [f]⟩
          ?_ hs
        · exact ⟨IH.1, by rw [IH.2]; simp⟩
        · intro g hg
          by_cases hgf : g = f
          · subst hgf
            refine ⟨{ tc with cover := some c }, ?_, ?_⟩
            · rw [show (⟨fsSet st.fs g { tc with cover := some c }, st.progress + 1,
                st.emits ++ [st.progress + 1], st.attempted ++ [g]⟩ : GaSt).fs =
                fsSet st.fs g { tc with cover := some c } from rfl]
              rw [fsLookup_set]
              simp
            · simp [ha]
          · obtain ⟨tg, hg1, hg2⟩ := hf g (List.mem_cons_of_mem f hg)
            refine ⟨tg, ?_, hg2⟩
            dsimp only
            rw [fsLookup_set]
            simp [hgf, hg1]



/-- C1: the claim fails on the code.  In the returned list of the batch
["src/A - B.mp3", "src/BadFormat.mp3", "src/C - D.mp3"], the file
"src/C - D.mp3" appears even though its per-item operation was never
attempted: quarantining "BadFormat.mp3" removes it from the list being
iterated, so the iterator skips the element that shifts into its place. -/
theorem spec_C1_returned_without_attempt :
    skipC ∈ skipRes.files ∧ skipRes.st.attempted.count skipC = 0
    ∧ skipRes.err = none := by decide

/-- C3: the claim fails on the code.  On the same three-file batch the run
completes without error yet only two of the three input items reach a
terminal classification (one tagged, one quarantined, none failed). -/
theorem spec_C3_lost_classification :
    skipRes.err = none ∧ skipRes.st.tagged.length = 1
    ∧ skipRes.st.quarantined.length = 1
    ∧ ([skipA, skipB, skipC] : List MPath).length = 3 := by decide

/-- C4: the progress counter is emitted exactly once after each processed
item, the emitted values are exactly 1, 2, ..., N where N is the number of
items processed so far (equal to the number of attempts on a run without an
uncaught exception), and the counter never exceeds the number M of input
items — for both `id3_correct` and `get_artwork`. -/
theorem spec_C4_progress :
    (∀ (cfg : Id3Cfg) (source : String) (files : List MPath) (fs : FS),
        (id3Correct cfg source files fs).st.emits
          = List.range' 1 (id3Correct cfg source files fs).st.progress
        ∧ (id3Correct cfg source files fs).st.progress ≤ files.length
        ∧ ((id3Correct cfg source files fs).err = none →
            (id3Correct cfg source files fs).st.progress
              = (id3Correct cfg source files fs).st.attempted.length))
    ∧ (∀ (cfg : GaCfg) (files : List MPath) (fs : FS),
        (getArtwork cfg files fs).st.emits
          = List.range' 1 (getArtwork cfg files fs).st.progress
        ∧ (getArtwork cfg files fs).st.progress ≤ files.length
        ∧ ((getArtwork cfg files fs).err = none →
            (getArtwork cfg files fs).st.progress = files.length)
        ∧ ((getArtwork cfg files fs).err = none →
            (getArtwork cfg files fs).st.progress
              = (getArtwork cfg files fs).st.attempted.length)) := by
  constructor
  · intro cfg source files fs
    have h := id3Loop_inv cfg source files.length files 0 ⟨fs, [], [], 0, [], []⟩
    exact ⟨h.2.1 rfl, by have h5 := h.1; simpa using h5, h.2.2 rfl⟩
  · intro cfg files fs
    have h := gaLoop_inv cfg files ⟨fs, 0, [], []⟩
    simp only [getArtwork]
    refine ⟨h.2.1 rfl, by have h5 := h.1; simpa using h5, ?_, h.2.2.1 rfl⟩
    intro he
    have h5 := h.2.2.2 he
    simpa using h5

/-- Witness for C4 at a concrete input. -/
theorem spec_C4_progress_witness :
    (id3Correct plainCfg "src" [skipA, skipB, skipC] skipFS).err = none
    ∧ (id3Correct plainCfg "src" [skipA, skipB, skipC] skipFS).st.progress
        = (id3Correct plainCfg "src" [skipA, skipB, skipC] skipFS).st.attempted.length :=
  ⟨by decide,
    (spec_C4_progress.1 plainCfg "src" [skipA, skipB, skipC] skipFS).2.2 (by decide)⟩


/-- C2, counterexample: the claim as stated is false.  In `get_artwork` the
provider search runs outside the per-item guard, so its failure on the
first item aborts the batch: the second item of this two-item batch is
never attempted. -/
theorem spec_C2_counterexample :
    (getArtwork searchFailCfg [gaF1, gaF2] gaFS).err ≠ none
    ∧ gaF2 ∉ (getArtwork searchFailCfg [gaF1, gaF2] gaFS).st.attempted
    ∧ gaF2 ∈ (getArtwork searchFailCfg [gaF1, gaF2] gaFS).files := by decide

/-- C2, amended: failures of the steps inside the per-item guard (image
selection, image fetch, tag embed and save) are isolated to their item:
when every file's tag read and every provider search succeed, the batch
never aborts and every item is attempted, whatever the fetch and the embed
do. -/
theorem spec_C2_guarded_isolation :
    ∀ (cfg : GaCfg) (files : List MPath) (fs : FS),
      (∀ f ∈ files, ∃ tc, fsLookup fs f = some tc ∧ tc.artist ≠ none) →
      (∀ s, ∃ rs, cfg.search s = Except.ok rs) →
      (getArtwork cfg files fs).err = none
      ∧ (getArtwork cfg files fs).st.attempted = files := by
  intro cfg files fs h1 h2
  have h := gaLoop_total cfg files ⟨fs, 0, [], []⟩ h1 h2
  simp only [getArtwork]
  exact ⟨h.1, by have h5 := h.2; simpa using h5⟩

/-- Witness for the amended C2: a concrete batch whose fetch and embed fail
on every item still attempts both items and completes. -/
theorem spec_C2_guarded_isolation_witness :
    (getArtwork noHitCfg [gaF1, gaF2] gaFS).err = none
    ∧ (getArtwork noHitCfg [gaF1, gaF2] gaFS).st.attempted = [gaF1, gaF2] :=
  spec_C2_guarded_isolation noHitCfg [gaF1, gaF2] gaFS
    (by
      intro f hf
      simp only [List.mem_cons, List.not_mem_nil, or_false] at hf
      rcases hf with rfl | rfl
      · exact ⟨{ artist := some "A" }, by decide, by decide⟩
      · exact ⟨{ artist := some "B" }, by decide, by decide⟩)
    (fun s => ⟨[], rfl⟩)

/-- C5: one `get_artwork` item is all-or-nothing: it either raises (leaving
the filesystem unchanged), or changes nothing, or saves exactly one cover
into the file's tag container; and with zero search results the file's tag
container is left unchanged. -/
theorem spec_C5_all_or_nothing :
    ∀ (cfg : GaCfg) (fs : FS) (f : MPath),
      ((∃ e, gaItem cfg fs f = .error e)
        ∨ gaItem cfg fs f = .ok fs
        ∨ (∃ tc c, fsLookup fs f = some tc
            ∧ gaItem cfg fs f = .ok (fsSet fs f { tc with cover := some c })))
      ∧ (∀ tc a0, fsLookup fs f = some tc → tc.artist = some a0 →
          cfg.search (stripArtistGA cfg.andSplit cfg.featSplit a0) = .ok [] →
          gaItem cfg fs f = .ok fs) :=
  fun cfg fs f =>
    ⟨gaItem_cases cfg fs f,
      fun tc a0 h1 h2 h3 => gaItem_noResults cfg fs f tc a0 h1 h2 h3⟩

/-- Witness for C5: with zero search results a concrete item's filesystem is
returned unchanged. -/
theorem spec_C5_all_or_nothing_witness :
    gaItem noHitCfg gaFS gaF1 = .ok gaFS :=
  (spec_C5_all_or_nothing noHitCfg gaFS gaF1).2
    { artist := some "A" } "A" (by decide) (by decide) rfl

/-- C6: the three batch operations derive the primary artist identically:
split on the configured "and" pattern, keep the first segment, trim, then
split on the configured "feature" pattern, keep the first segment, trim;
with feature pattern `feat\.` the artist string "Artist A feat. Artist B"
yields "Artist A" whenever the "and" pattern does not match it. -/
theorem spec_C6_strip_artist :
    (∀ (andS featS : String → String) (a : String),
        stripArtistGA andS featS a = stripArtistFC andS featS a
        ∧ stripArtistFC andS featS a = stripArtistFM andS featS a
        ∧ stripArtistGA andS featS a = pyStrip (featS (pyStrip (andS a))))
    ∧ (∀ andS : String → String,
        andS "Artist A feat. Artist B" = "Artist A feat. Artist B" →
        stripArtistGA andS featDotSplit "Artist A feat. Artist B" = "Artist A") := by
  refine ⟨fun _ _ _ => ⟨rfl, rfl, rfl⟩, ?_⟩
  intro andS h
  unfold stripArtistGA
  rw [h]
  decide

/-- Witness for C6 with an "and" pattern that matches nothing. -/
theorem spec_C6_strip_artist_witness :
    stripArtistGA id featDotSplit "Artist A feat. Artist B" = "Artist A" :=
  spec_C6_strip_artist.2 id rfl


/-- C7: retagging a single file named "Artist A - Song One.mp3" (unchanged
by the two feature substitutions and matching no invalid pattern) completes
without error, classifies the file Tagged, and writes artist "Artist A" and
title "Song One" into its tag container. -/
theorem spec_C7_tagged (cfg : Id3Cfg) (source dir : String) (fs : FS) (tc : TagC)
    (h1 : cfg.featureSub "Artist A - Song One.mp3" = "Artist A - Song One.mp3")
    (h2 : cfg.feature2Sub "Artist A - Song One.mp3" = "Artist A - Song One.mp3")
    (h3 : cfg.invalidMatch "Artist A - Song One.mp3" = false)
    (h4 : fsLookup fs ⟨dir, "Artist A - Song One.mp3"⟩ = some tc) :
    (id3Correct cfg source [⟨dir, "Artist A - Song One.mp3"⟩] fs).err = none
    ∧ (id3Correct cfg source [⟨dir, "Artist A - Song One.mp3"⟩] fs).st.tagged
        = [⟨dir, "Artist A - Song One.mp3"⟩]
    ∧ (id3Correct cfg source [⟨dir, "Artist A - Song One.mp3"⟩] fs).st.quarantined = []
    ∧ fsLookup (id3Correct cfg source [⟨dir, "Artist A - Song One.mp3"⟩] fs).st.fs
        ⟨dir, "Artist A - Song One.mp3"⟩
        = some { tc with artist := some "Artist A", title := some "Song One" } := by
  have hb : id3Body cfg source [⟨dir, "Artist A - Song One.mp3"⟩]
      ⟨dir, "Artist A - Song One.mp3"⟩ ⟨fs, [], [], 0, [], []⟩
      = .next [⟨dir, "Artist A - Song One.mp3"⟩]
          ⟨fsSet (fsSet (fsErase fs ⟨dir, "Artist A - Song One.mp3"⟩)
              ⟨dir, "Artist A - Song One.mp3"⟩ tc)
            ⟨dir, "Artist A - Song One.mp3"⟩
            { tc with artist := some "Artist A", title := some "Song One" },
            [⟨dir, "Artist A - Song One.mp3"⟩], [], 1, [1],
            [⟨dir, "Artist A - Song One.mp3"⟩]⟩ := by
    unfold id3Body
    dsimp only
    rw [h1, h2]
    rw [show fsRename fs ⟨dir, "Artist A - Song One.mp3"⟩ ⟨dir, "Artist A - Song One.mp3"⟩
        = some (fsSet (fsErase fs ⟨dir, "Artist A - Song One.mp3"⟩)
            ⟨dir, "Artist A - Song One.mp3"⟩ tc) from by
      unfold fsRename; rw [h4]]
    dsimp only
    have hcond : ¬ (cfg.invalidMatch "Artist A - Song One.mp3" = true
        ∨ (reSplit " - " "Artist A - Song One.mp3").length ≠ 2) := by
      rw [h3]; decide
    rw [if_neg hcond]
    rw [show fsLookup (fsSet (fsErase fs ⟨dir, "Artist A - Song One.mp3"⟩)
          ⟨dir, "Artist A - Song One.mp3"⟩ tc) ⟨dir, "Artist A - Song One.mp3"⟩
        = some tc from by rw [fsLookup_set]; simp]
    dsimp only
    rw [show pyStrip (((reSplit " - " "Artist A - Song One.mp3").get? 0).getD "")
        = "Artist A" from by decide]
    rw [show pyStrip (pySliceToNeg4 (((reSplit " - " "Artist A - Song One.mp3").get? 1).getD ""))
        = "Song One" from by decide]
    simp
  unfold id3Correct
  rw [show ([⟨dir, "Artist A - Song One.mp3"⟩] : List MPath).length = 0 + 1 from rfl]
  rw [id3Loop_cons cfg source 0 _ 0 _ (by simp)]
  rw [show ([⟨dir, "Artist A - Song One.mp3"⟩] : List MPath).get ⟨0, by simp⟩
      = ⟨dir, "Artist A - Song One.mp3"⟩ from rfl]
  rw [hb]
  dsimp only
  rw [id3Loop_zero]
  refine ⟨rfl, rfl, rfl, ?_⟩
  rw [fsLookup_set]
  simp


/-- Witness for C7 with identity substitutions and an empty tag container. -/
theorem spec_C7_tagged_witness :
    (id3Correct plainCfg "src" [⟨"src", "Artist A - Song One.mp3"⟩]
        [(⟨"src", "Artist A - Song One.mp3"⟩, {})]).err = none
    ∧ (id3Correct plainCfg "src" [⟨"src", "Artist A - Song One.mp3"⟩]
        [(⟨"src", "Artist A - Song One.mp3"⟩, {})]).st.tagged
        = [⟨"src", "Artist A - Song One.mp3"⟩]
    ∧ (id3Correct plainCfg "src" [⟨"src", "Artist A - Song One.mp3"⟩]
        [(⟨"src", "Artist A - Song One.mp3"⟩, {})]).st.quarantined = []
    ∧ fsLookup (id3Correct plainCfg "src" [⟨"src", "Artist A - Song One.mp3"⟩]
        [(⟨"src", "Artist A - Song One.mp3"⟩, {})]).st.fs
        ⟨"src", "Artist A - Song One.mp3"⟩
        = some { ({} : TagC) with artist := some "Artist A", title := some "Song One" } :=
  spec_C7_tagged plainCfg "src" "src" [(⟨"src", "Artist A - Song One.mp3"⟩, {})] {}
    rfl rfl rfl (by decide)

/-- C8: retagging a single file named "BadFormat.mp3" (unchanged by the two
feature substitutions) completes without error and quarantines the file: it
is relocated into the `_invalid` subfolder of the source directory with its
tag container untouched, it is not tagged, and it is removed from the
returned list. -/
theorem spec_C8_quarantined (cfg : Id3Cfg) (source dir : String) (fs : FS) (tc : TagC)
    (h1 : cfg.featureSub "BadFormat.mp3" = "BadFormat.mp3")
    (h2 : cfg.feature2Sub "BadFormat.mp3" = "BadFormat.mp3")
    (h4 : fsLookup fs ⟨dir, "BadFormat.mp3"⟩ = some tc)
    (h5 : dir ≠ source ++ "/_invalid") :
    (id3Correct cfg source [⟨dir, "BadFormat.mp3"⟩] fs).err = none
    ∧ (id3Correct cfg source [⟨dir, "BadFormat.mp3"⟩] fs).files = []
    ∧ (id3Correct cfg source [⟨dir, "BadFormat.mp3"⟩] fs).st.quarantined
        = [⟨source ++ "/_invalid", "BadFormat.mp3"⟩]
    ∧ (id3Correct cfg source [⟨dir, "BadFormat.mp3"⟩] fs).st.tagged = []
    ∧ fsLookup (id3Correct cfg source [⟨dir, "BadFormat.mp3"⟩] fs).st.fs
        ⟨source ++ "/_invalid", "BadFormat.mp3"⟩ = some tc
    ∧ fsLookup (id3Correct cfg source [⟨dir, "BadFormat.mp3"⟩] fs).st.fs
        ⟨dir, "BadFormat.mp3"⟩ = none := by
  have hpi : (⟨dir, "BadFormat.mp3"⟩ : MPath) ≠ ⟨source ++ "/_invalid", "BadFormat.mp3"⟩ :=
    fun hcontr => h5 (congrArg MPath.dir hcontr)
  have hb : id3Body cfg source [⟨dir, "BadFormat.mp3"⟩]
      ⟨dir, "BadFormat.mp3"⟩ ⟨fs, [], [], 0, [], []⟩
      = .next []
          ⟨fsSet (fsErase (fsSet (fsErase fs ⟨dir, "BadFormat.mp3"⟩)
                ⟨dir, "BadFormat.mp3"⟩ tc) ⟨dir, "BadFormat.mp3"⟩)
              ⟨source ++ "/_invalid", "BadFormat.mp3"⟩ tc,
            [], [⟨source ++ "/_invalid", "BadFormat.mp3"⟩], 1, [1],
            [⟨dir, "BadFormat.mp3"⟩]⟩ := by
    unfold id3Body
    dsimp only
    rw [h1, h2]
    rw [show fsRename fs ⟨dir, "BadFormat.mp3"⟩ ⟨dir, "BadFormat.mp3"⟩
        = some (fsSet (fsErase fs ⟨dir, "BadFormat.mp3"⟩) ⟨dir, "BadFormat.mp3"⟩ tc) from by
      unfold fsRename; rw [h4]]
    dsimp only
    have hcond : (cfg.invalidMatch "BadFormat.mp3" = true
        ∨ (reSplit " - " "BadFormat.mp3").length ≠ 2) := Or.inr (by decide)
    rw [if_pos hcond]
    rw [show fsRename (fsSet (fsErase fs ⟨dir, "BadFormat.mp3"⟩) ⟨dir, "BadFormat.mp3"⟩ tc)
          ⟨dir, "BadFormat.mp3"⟩ ⟨source ++ "/_invalid", "BadFormat.mp3"⟩
        = some (fsSet (fsErase (fsSet (fsErase fs ⟨dir, "BadFormat.mp3"⟩)
              ⟨dir, "BadFormat.mp3"⟩ tc) ⟨dir, "BadFormat.mp3"⟩)
            ⟨source ++ "/_invalid", "BadFormat.mp3"⟩ tc) from by
      unfold fsRename
      rw [show fsLookup (fsSet (fsErase fs ⟨dir, "BadFormat.mp3"⟩)
            ⟨dir, "BadFormat.mp3"⟩ tc) ⟨dir, "BadFormat.mp3"⟩ = some tc from by
        rw [fsLookup_set]; simp]]
    dsimp only
    rw [show pyRemove [(⟨dir, "BadFormat.mp3"⟩ : MPath)] ⟨dir, "BadFormat.mp3"⟩
        = some [] from by simp [pyRemove]]
    simp
  unfold id3Correct
  rw [show ([⟨dir, "BadFormat.mp3"⟩] : List MPath).length = 0 + 1 from rfl]
  rw [id3Loop_cons cfg source 0 _ 0 _ (by simp)]
  rw [show ([⟨dir, "BadFormat.mp3"⟩] : List MPath).get ⟨0, by simp⟩
      = ⟨dir, "BadFormat.mp3"⟩ from rfl]
  rw [hb]
  dsimp only
  rw [id3Loop_zero]
  refine ⟨rfl, rfl, rfl, rfl, ?_, ?_⟩
  · rw [fsLookup_set]
    simp
  · rw [fsLookup_set]
    rw [if_neg hpi]
    rw [fsLookup_erase]
    simp

/-- Witness for C8 with identity substitutions and an empty tag container. -/
theorem spec_C8_quarantined_witness :
    (id3Correct plainCfg "src" [⟨"src", "BadFormat.mp3"⟩]
        [(⟨"src", "BadFormat.mp3"⟩, {})]).err = none
    ∧ (id3Correct plainCfg "src" [⟨"src", "BadFormat.mp3"⟩]
        [(⟨"src", "BadFormat.mp3"⟩, {})]).files = []
    ∧ (id3Correct plainCfg "src" [⟨"src", "BadFormat.mp3"⟩]
        [(⟨"src", "BadFormat.mp3"⟩, {})]).st.quarantined
        = [⟨"src" ++ "/_invalid", "BadFormat.mp3"⟩]
    ∧ (id3Correct plainCfg "src" [⟨"src", "BadFormat.mp3"⟩]
        [(⟨"src", "BadFormat.mp3"⟩, {})]).st.tagged = []
    ∧ fsLookup (id3Correct plainCfg "src" [⟨"src", "BadFormat.mp3"⟩]
        [(⟨"src", "BadFormat.mp3"⟩, {})]).st.fs
        ⟨"src" ++ "/_invalid", "BadFormat.mp3"⟩ = some {}
    ∧ fsLookup (id3Correct plainCfg "src" [⟨"src", "BadFormat.mp3"⟩]
        [(⟨"src", "BadFormat.mp3"⟩, {})]).st.fs
        ⟨"src", "BadFormat.mp3"⟩ = none :=
  spec_C8_quarantined plainCfg "src" "src" [(⟨"src", "BadFormat.mp3"⟩, {})] {}
    rfl rfl (by decide) (by decide)


/-- C9: copying a file whose artist subfolder already exists at the
destination does not raise, leaves the directory set unchanged, and still
copies the file into that subfolder under its own basename. -/
theorem spec_C9_idempotent_mkdir (cfg : CpCfg) (destination : String) (fs : FS)
    (dirs : List String) (f : MPath) (tc : TagC) (a0 : String)
    (h1 : fsLookup fs f = some tc) (h2 : tc.artist = some a0)
    (h3 : destination ++ "/" ++ stripArtistFC cfg.andSplit cfg.featSplit a0 ∈ dirs) :
    cpItem cfg destination fs dirs f
      = .ok (fsSet fs (fcDestPath cfg destination a0 f.base) tc, dirs)
    ∧ fsLookup (fsSet fs (fcDestPath cfg destination a0 f.base) tc)
        (fcDestPath cfg destination a0 f.base) = some tc := by
  have h3p : (fcDestPath cfg destination a0 f.base).dir ∈ dirs := h3
  constructor
  · unfold cpItem
    rw [h1]
    dsimp only
    rw [h2]
    dsimp only
    rw [if_pos h3p]
  · rw [fsLookup_set]
    simp

/-- Witness for C9: a concrete copy into an existing artist folder. -/
theorem spec_C9_idempotent_mkdir_witness :
    cpItem ⟨id, id⟩ "dst" [(⟨"src", "x.mp3"⟩, { artist := some "A" })] ["dst/A"]
        ⟨"src", "x.mp3"⟩
      = .ok (fsSet [(⟨"src", "x.mp3"⟩, { artist := some "A" })]
          (fcDestPath ⟨id, id⟩ "dst" "A" "x.mp3") { artist := some "A" }, ["dst/A"])
    ∧ fsLookup (fsSet [(⟨"src", "x.mp3"⟩, { artist := some "A" })]
          (fcDestPath ⟨id, id⟩ "dst" "A" "x.mp3") { artist := some "A" })
        (fcDestPath ⟨id, id⟩ "dst" "A" "x.mp3") = some { artist := some "A" } :=
  spec_C9_idempotent_mkdir ⟨id, id⟩ "dst" [(⟨"src", "x.mp3"⟩, { artist := some "A" })]
    ["dst/A"] ⟨"src", "x.mp3"⟩ { artist := some "A" } "A" (by decide) (by decide)
    (by decide)

/-- C10: `file_copy` and `file_move` compute the same artist-derived
destination path, their per-item bodies raise in exactly the same cases and
produce the same directory set and the same container at the destination
path, and both batch functions return the full input list unchanged. -/
theorem spec_C10_copy_move_agree :
    (∀ (cfg : CpCfg) (destination : String) (a0 b : String),
        fcDestPath cfg destination a0 b = fmDestPath cfg destination a0 b)
    ∧ (∀ (cfg : CpCfg) (destination : String) (fs : FS) (dirs : List String) (f : MPath),
        ((∃ e, cpItem cfg destination fs dirs f = .error e)
          ↔ (∃ e, mvItem cfg destination fs dirs f = .error e))
        ∧ (∀ fsC dC, cpItem cfg destination fs dirs f = .ok (fsC, dC) →
            ∃ fsM, mvItem cfg destination fs dirs f = .ok (fsM, dC)
              ∧ ∀ tc a0, fsLookup fs f = some tc → tc.artist = some a0 →
                  fsLookup fsM (fcDestPath cfg destination a0 f.base)
                    = fsLookup fsC (fcDestPath cfg destination a0 f.base)))
    ∧ (∀ (cfg : CpCfg) (destination : String) (files : List MPath) (fs : FS)
          (dirs : List String),
        (fileCopy cfg destination files fs dirs).files = files
        ∧ (fileMove cfg destination files fs dirs).files = files) := by
  refine ⟨fun _ _ _ _ => rfl, ?_, fun _ _ _ _ _ => ⟨rfl, rfl⟩⟩
  intro cfg destination fs dirs f
  cases hL : fsLookup fs f with
  | none =>
    constructor
    · constructor
      · intro _; exact ⟨_, by unfold mvItem; rw [hL]⟩
      · intro _; exact ⟨_, by unfold cpItem; rw [hL]⟩
    · intro fsC dC hok
      unfold cpItem at hok
      rw [hL] at hok
      simp at hok
  | some tc =>
    cases hA : tc.artist with
    | none =>
      constructor
      · constructor
        · intro _; exact ⟨_, by unfold mvItem; rw [hL]; dsimp only; rw [hA]⟩
        · intro _; exact ⟨_, by unfold cpItem; rw [hL]; dsimp only; rw [hA]⟩
      · intro fsC dC hok
        unfold cpItem at hok
        rw [hL] at hok
        dsimp only at hok
        rw [hA] at hok
        simp at hok
    | some a0 =>
      have hcp : cpItem cfg destination fs dirs f
          = .ok (fsSet fs (fcDestPath cfg destination a0 f.base) tc,
              if (fcDestPath cfg destination a0 f.base).dir ∈ dirs then dirs
              else dirs ++ [(fcDestPath cfg destination a0 f.base).dir]) := by
        unfold cpItem
        rw [hL]
        dsimp only
        rw [hA]
      have hmv : mvItem cfg destination fs dirs f
          = .ok (fsSet (fsErase fs f) (fcDestPath cfg destination a0 f.base) tc,
              if (fcDestPath cfg destination a0 f.base).dir ∈ dirs then dirs
              else dirs ++ [(fcDestPath cfg destination a0 f.base).dir]) := by
        unfold mvItem
        rw [hL]
        dsimp only
        rw [hA]
        dsimp only
        rw [show fsRename fs f (fmDestPath cfg destination a0 f.base)
            = some (fsSet (fsErase fs f) (fmDestPath cfg destination a0 f.base) tc) from by
          unfold fsRename; rw [hL]]
        rfl
      constructor
      · constructor
        · intro ⟨e, he⟩; rw [hcp] at he; simp at he
        · intro ⟨e, he⟩; rw [hmv] at he; simp at he
      · intro fsC dC hok
        rw [hcp] at hok
        injection hok with hok
        injection hok with hfs hd
        refine ⟨fsSet (fsErase fs f) (fcDestPath cfg destination a0 f.base) tc, ?_, ?_⟩
        · rw [hmv, hd]
        · intro tc2 a02 hL2 hA2
          have htc : tc = tc2 := Option.some.inj hL2
          subst htc
          have ha0 : a0 = a02 := by
            rw [hA] at hA2
            exact Option.some.inj hA2
          subst ha0
          rw [← hfs]
          rw [fsLookup_set, fsLookup_set]
          simp

/-- Witness for C10: per-item agreement evaluated on a concrete file. -/
theorem spec_C10_copy_move_agree_witness :
    ∃ fsM, mvItem ⟨id, id⟩ "dst" [(⟨"src", "x.mp3"⟩, { artist := some "A" })] ["dst/A"]
        ⟨"src", "x.mp3"⟩ = .ok (fsM, ["dst/A"])
      ∧ ∀ tc a0,
          fsLookup [(⟨"src", "x.mp3"⟩, { artist := some "A" })] ⟨"src", "x.mp3"⟩ = some tc →
          tc.artist = some a0 →
          fsLookup fsM (fcDestPath ⟨id, id⟩ "dst" a0 "x.mp3")
            = fsLookup (fsSet [(⟨"src", "x.mp3"⟩, { artist := some "A" })]
                (fcDestPath ⟨id, id⟩ "dst" "A" "x.mp3") { artist := some "A" })
              (fcDestPath ⟨id, id⟩ "dst" a0 "x.mp3") :=
  (spec_C10_copy_move_agree.2.1 ⟨id, id⟩ "dst"
      [(⟨"src", "x.mp3"⟩, { artist := some "A" })] ["dst/A"] ⟨"src", "x.mp3"⟩).2
    (fsSet [(⟨"src", "x.mp3"⟩, { artist := some "A" })]
      (fcDestPath ⟨id, id⟩ "dst" "A" "x.mp3") { artist := some "A" }) ["dst/A"]
    (by rfl)

end HandleMusic
